import Mathlib

/-!
Verification of the Engine Subprocess Supervisor of the
dylangames-mcp-chess-engine repository, as a shallow embedding of
`src/dylangames_mcp_chess_engine/engine_wrapper.py`,
`src/dylangames_mcp_chess_engine/shutdown.py` and
`src/dylangames_mcp_chess_engine/main.py` (plus the legacy copy
`src/engine_wrapper.py` where noted).
-/

namespace ChessEngineSpec

/-! ## Python string primitives

Models of the Python `str` operations the source relies on:
`str.strip()`, `str.split()` (no argument: split on whitespace runs,
dropping empty fields), `str.startswith(p)` and substring containment.
All operate on the character list of the string so they evaluate by
kernel reduction.
-/

def isWsChar (c : Char) : Bool :=
  c = ' ' || c = '\t' || c = '\n' || c = '\r' || c = '\x0b' || c = '\x0c'

/-- Python `s.strip()`: drop whitespace from both ends. -/
def pyStrip (s : String) : String :=
  ⟨((s.toList.dropWhile isWsChar).reverse.dropWhile isWsChar).reverse⟩

def pySplitAux : List Char → List Char → List String
  | [], acc => if acc.isEmpty then [] else [⟨acc.reverse⟩]
  | c :: cs, acc =>
    if isWsChar c then
      if acc.isEmpty then pySplitAux cs [] else (⟨acc.reverse⟩ : String) :: pySplitAux cs []
    else
      pySplitAux cs (c :: acc)

/-- Python `s.split()` with no argument: whitespace-run split, empties dropped. -/
def pySplit (s : String) : List String := pySplitAux s.toList []

/-- Python `s.startswith(pat)`. -/
def strStarts (s pat : String) : Bool := List.isPrefixOf pat.toList s.toList

/-- Python `pat in s` (substring containment). -/
def containsStr (s pat : String) : Bool := decide (pat.toList <:+: s.toList)

/-- ASCII lower-casing of a string (for case-insensitive mention checks). -/
def lowerStr (s : String) : String := ⟨s.toList.map Char.toLower⟩

/-! ## Binary Resolver — `engine_wrapper._get_engine_path`

The file system and environment are explicit inputs.  `FileInfo p`
records the two predicates the source consults about a path:
`Path(p).is_file()` and `os.access(p, os.X_OK)`.
-/

structure FileInfo where
  isFile : Bool
  isExecFile : Bool
deriving DecidableEq

structure ResolveEnv where
  /-- Value of `os.environ.get("ENGINE_PATH")`. -/
  enginePath : Option String
  /-- Value of `os.environ.get("ENGINE_OS")`. -/
  engineOS : Option String
  /-- Value of `os.environ.get("ENGINE_NAME", "stockfish")`. -/
  engineName : String
  /-- Value of `os.environ.get("ENGINE_VERSION", "17.1")`. -/
  engineVersion : String
  /-- Value of `platform.system().lower()`. -/
  platformSystem : String
  /-- Value of `Path(__file__).parent.parent.parent`, resolved. -/
  pkgRoot : String
  /-- file-system facts about each path -/
  fs : String → FileInfo

/-- A path passes the source's `path.is_file() and os.access(path, os.X_OK)` test. -/
def isUsable (env : ResolveEnv) (p : String) : Bool :=
  (env.fs p).isFile && (env.fs p).isExecFile

/-- The fixed system locations tried at step 2. -/
def systemPaths : List String :=
  ["/usr/games/stockfish", "/usr/bin/stockfish", "/usr/local/bin/stockfish"]

/-- OS detection: the mapping applied when `ENGINE_OS` is unset. -/
def detectOS (sys : String) : Except String String :=
  if sys = "darwin" then .ok "macos"
  else if sys = "linux" then .ok "linux"
  else if sys = "windows" then .ok "windows"
  else .error ("Unsupported platform: " ++ sys)

/-- The step `engine_os = os.environ.get("ENGINE_OS"); if not engine_os: detect`. -/
def detectOSTag (env : ResolveEnv) : Except String String :=
  match env.engineOS with
  | some s => if s = "" then detectOS env.platformSystem else .ok s
  | none => detectOS env.platformSystem

/-- The constructed fallback path from step 3. -/
def fallbackPathOf (env : ResolveEnv) (osTag : String) : String :=
  env.pkgRoot ++ "/engines/" ++ env.engineName ++ "/" ++ env.engineVersion
    ++ "/" ++ osTag ++ "/" ++ (if osTag = "windows" then "stockfish.exe" else "stockfish")

/-- Error text when the fallback path is not a file (mentions `ENGINE_PATH` when it was set truthy). -/
def fallbackErrNotFound (enginePathVar : Option String) (fp : String) : String :=
  ("Stockfish binary not found at fallback path: " ++ fp ++ "\n")
  ++ (match enginePathVar with
      | some ep =>
        if ep = "" then "" else "Note: ENGINE_PATH was set (" ++ ep ++ ") but is invalid.\n"
      | none => "")
  ++ ("Please either:\n"
      ++ "1. Set ENGINE_PATH to point to your Stockfish binary, or\n"
      ++ "2. Download the appropriate binary from "
      ++ "https://github.com/official-stockfish/Stockfish/releases\n"
      ++ "   and place it at " ++ fp)

/-- Error text when the fallback path exists but is not executable. -/
def fallbackErrNotExec (fp : String) : String :=
  "Stockfish binary at " ++ fp ++ " exists but is not executable.\n"
    ++ "Please ensure the file has proper execute permissions."

/-- Step 3 of `_get_engine_path`: the constructed fallback. -/
def resolveFallback (env : ResolveEnv) : Except String String :=
  match detectOSTag env with
  | .error e => .error e
  | .ok osTag =>
    let fp := fallbackPathOf env osTag
    if !(env.fs fp).isFile then
      .error (fallbackErrNotFound env.enginePath fp)
    else if !(env.fs fp).isExecFile then
      .error (fallbackErrNotExec fp)
    else
      .ok fp

/-- Steps 2–3 of `_get_engine_path`: the fixed system locations, then the fallback. -/
def resolveFromSystem (env : ResolveEnv) : Except String String :=
  match systemPaths.find? (isUsable env) with
  | some p => .ok p
  | none => resolveFallback env

/-- The full ordered policy of `_get_engine_path`. -/
def getEnginePath (env : ResolveEnv) : Except String String :=
  match env.enginePath with
  | some ep =>
    if ep = "" then resolveFromSystem env
    else if isUsable env ep then .ok ep
    else resolveFromSystem env
  | none => resolveFromSystem env

/-! ## Line Channel — `StockfishEngine._read_response`

One loop iteration of `_read_response` observes the environment:
either the deadline check at the top of the loop fires, or
`select.select` reports a readable line (already decoded), or
`select.select` reports nothing and `poll()` is consulted.
A trace of such events determines the function's behaviour.
-/

inductive ReadEvent where
  /-- The check `time.time() - start_time > timeout` was true at the top of the loop. -/
  | deadline : ReadEvent
  /-- The `select` call reported data and `readline()` produced this decoded line. -/
  | line (s : String) : ReadEvent
  /-- The `select` call reported no data; `alive` is `poll() is None`. -/
  | noData (alive : Bool) : ReadEvent
deriving DecidableEq

/-- Python exceptions that can escape the wrapper's operations:
`StockfishError(msg)` and the `IndexError` from `split()[1]`. -/
inductive PyErr where
  | stockfish (msg : String)
  | indexErr
deriving DecidableEq

/-- Python `str(e)` for the exceptions we model. -/
def pyStr : PyErr → String
  | .stockfish m => m
  | .indexErr => "list index out of range"

/-- Python truthiness of the `until: str | None` parameter. -/
def optTruthy : Option String → Bool
  | some s => s ≠ ""
  | none => false

/-- Message of the inner timeout raise (the float is rendered by the caller). -/
def timeoutMsg (tRepr : String) : String :=
  "Timeout waiting for response (waited " ++ tRepr ++ "s)"

/-- The `except Exception` clause of `_read_response` re-wraps every error. -/
def readWrap (m : String) : String := "Error reading engine response: " ++ m

/-- The `while True` loop of `_read_response`, accumulating stripped
non-empty lines in `acc`.  Returns `none` when the trace ends before the
loop does. -/
def readLoop (pat : Option String) (tRepr : String) :
    List ReadEvent → List String → Option (Except PyErr (List String))
  | [], _ => none
  | .deadline :: _, acc =>
    if optTruthy pat && !acc.isEmpty then
      some (.ok acc)
    else
      some (.error (.stockfish (readWrap (timeoutMsg tRepr))))
  | .line s :: evs, acc =>
    let t := pyStrip s
    if t = "" then
      readLoop pat tRepr evs acc
    else
      let acc' := acc ++ [t]
      match pat with
      | some p => if p ≠ "" && strStarts t p then some (.ok acc') else readLoop pat tRepr evs acc'
      | none => readLoop pat tRepr evs acc'
  | .noData alive :: evs, acc =>
    if alive then
      readLoop pat tRepr evs acc
    else
      some (.error (.stockfish (readWrap "Engine process terminated unexpectedly")))

/-- The call `_read_response(until=pat, timeout=...)` on a live process. -/
def readResponse (pat : Option String) (tRepr : String) (evs : List ReadEvent) :
    Option (Except PyErr (List String)) :=
  readLoop pat tRepr evs []

/-! ## Engine Instance — `StockfishEngine.get_best_move`

The child's stdout behaviour is a `ReadEvent` trace; the model returns
the commands written to stdin together with the outcome.
-/

/-- The composed `position` line of `get_best_move`. -/
def positionCmd (fen : String) (hist : List String) : String :=
  let base := "position fen " ++ fen
  if hist.isEmpty then base else base ++ " moves " ++ String.intercalate " " hist

/-- The response-parsing loop of `get_best_move`: first line starting with
`bestmove`, second whitespace token; no such line is a `StockfishError`. -/
def parseBestMove (responses : List String) : Except PyErr String :=
  match responses.find? (fun r => strStarts r "bestmove") with
  | some r =>
    match (pySplit r).get? 1 with
    | some m => .ok m
    | none => .error .indexErr
  | none => .error (.stockfish "No best move found in engine response")

/-- The `except Exception` clause of `get_best_move`. -/
def gbmWrap (e : PyErr) : PyErr := .stockfish ("Error getting best move: " ++ pyStr e)

/-- Model of `StockfishEngine.get_best_move(fen, move_history)`.  `alive` is the
entry check `self.process and self.process.poll() is None`; a `None`
history is the empty list.  First component: commands sent to stdin;
second: `none` when the trace is too short, otherwise the outcome. -/
def getBestMove (alive : Bool) (fen : String) (hist : List String)
    (evs : List ReadEvent) : List String × Option (Except PyErr String) :=
  if !alive then
    ([], some (.error (.stockfish "Engine not initialized or not running")))
  else
    let cmds := [positionCmd fen hist, "go movetime 3000"]
    match readResponse (some "bestmove") "30.0" evs with
    | none => (cmds, none)
    | some (.error e) => (cmds, some (.error (gbmWrap e)))
    | some (.ok rs) =>
      match parseBestMove rs with
      | .ok m => (cmds, some (.ok m))
      | .error e => (cmds, some (.error (gbmWrap e)))

/-- The parsing loop of the legacy module-level `get_best_move`
(`src/engine_wrapper.py`): scans the responses in reverse and rejects
the literal `(none)`. -/
def legacyParseBestMove (response : List String) : Except PyErr String :=
  match response.reverse.find? (fun l => strStarts l "bestmove") with
  | some l =>
    match (pySplit l).get? 1 with
    | some m =>
      if m = "(none)" then .error (.stockfish "No legal moves in position") else .ok m
    | none => .error .indexErr
  | none => .error (.stockfish "Failed to get best move from engine")

/-! ## Engine Instance — `StockfishEngine.__init__` / `_initialize_engine` -/

deriving instance DecidableEq for Except

/-- Observable outcome of constructing a `StockfishEngine`. -/
structure InitOutcome where
  /-- commands written to the child's stdin, in order -/
  sent : List String
  /-- whether `EngineRegistry.register(self)` ran -/
  registered : Bool
  /-- whether a live child remains -/
  liveChild : Bool
  /-- normal return or the raised `StockfishError` -/
  result : Except PyErr Unit
deriving DecidableEq

/-- The two fixed option settings sent between `uciok` and `isready`. -/
def optionCmds : List String :=
  ["setoption name Hash value 128", "setoption name Threads value 4"]

/-- Model of `_initialize_engine` after a successful spawn: the UCI handshake.
`uciEvs` and `readyEvs` are the child's stdout behaviour after `uci`
and after `isready` respectively.  On any failure the `except` clause
runs `self.stop()` (the partial child is reclaimed) and re-raises. -/
def initEngine (uciEvs readyEvs : List ReadEvent) : Option InitOutcome :=
  match readResponse (some "uciok") "5.0" uciEvs with
  | none => none
  | some (.error e) =>
    some ⟨["uci"], false, false, .error (.stockfish ("Failed to initialize engine: " ++ pyStr e))⟩
  | some (.ok rs) =>
    if rs.any (fun r => strStarts r "uciok") then
      match readResponse (some "readyok") "5.0" readyEvs with
      | none => none
      | some (.error e) =>
        some ⟨"uci" :: optionCmds ++ ["isready"], false, false,
          .error (.stockfish ("Failed to initialize engine: " ++ pyStr e))⟩
      | some (.ok rs2) =>
        if rs2.any (fun r => strStarts r "readyok") then
          some ⟨"uci" :: optionCmds ++ ["isready"], false, true, .ok ()⟩
        else
          some ⟨"uci" :: optionCmds ++ ["isready"], false, false,
            .error (.stockfish
              ("Failed to initialize engine: Engine not responding to isready command"))⟩
    else
      some ⟨["uci"], false, false,
        .error (.stockfish ("Failed to initialize engine: Failed to initialize UCI mode"))⟩

/-- Model of `StockfishEngine.__init__`: runs `_initialize_engine` and only on
normal return registers the instance with the registry. -/
def newEngine (uciEvs readyEvs : List ReadEvent) : Option InitOutcome :=
  match initEngine uciEvs readyEvs with
  | none => none
  | some o =>
    match o.result with
    | .ok _ => some { o with registered := true }
    | .error _ => some o

/-! ## Engine Instance — `StockfishEngine.stop` -/

/-- Environment of one `stop()` call: the state of the instance and how
the child reacts. -/
structure StopEnv where
  /-- Whether `self.process is not None` at entry. -/
  procSome : Bool
  /-- Whether `self.process.poll() is not None` at entry (child already dead). -/
  alreadyExited : Bool
  /-- writing `quit` raises `BrokenPipeError` -/
  quitSendFails : Bool
  /-- Whether `self.process.wait(timeout=5.0)` returns before the deadline. -/
  exitsWithin5 : Bool
  /-- Whether `self.process.kill()` raises. -/
  killRaises : Bool
  /-- the instance is currently in the registry -/
  registered : Bool
deriving DecidableEq

/-- Observable outcome of one `stop()` call. -/
structure StopOutcome where
  /-- a `quit` write was attempted -/
  quitAttempted : Bool
  /-- Whether `wait(timeout=5.0)` was called. -/
  waited5 : Bool
  /-- Whether `terminate()` was called (the source never calls it). -/
  terminateCalled : Bool
  /-- Whether `kill()` was called. -/
  killCalled : Bool
  /-- Whether `self.process is not None` after the call. -/
  procSome : Bool
  /-- the instance is in the registry after the call -/
  registered : Bool
  /-- the call raised -/
  raised : Bool
deriving DecidableEq

/-- Model of `StockfishEngine.stop()`.  The try body sends `quit` and waits 5 s
when the child is alive; the `except` clause calls `kill()` inside its
own try/except; the `finally` clause clears the handle and unregisters. -/
def stopEngine (env : StopEnv) : StopOutcome :=
  if !env.procSome then
    { quitAttempted := false, waited5 := false, terminateCalled := false,
      killCalled := false, procSome := false, registered := env.registered,
      raised := false }
  else
    let attempted := !env.alreadyExited
    let waited := !env.alreadyExited && !env.quitSendFails
    let excRaised := !env.alreadyExited && (env.quitSendFails || !env.exitsWithin5)
    { quitAttempted := attempted, waited5 := waited, terminateCalled := false,
      killCalled := excRaised, procSome := false, registered := false,
      raised := false }

/-! ## Engine Registry — `shutdown.EngineRegistry`

Instances are identified by `id(engine)`, modelled as `Nat`; the
registry is a finite set.  `raisesOn e = true` means `e.stop()` raises
(swallowed by the loop); a non-raising `stop()` unregisters its own
instance, as `StockfishEngine.stop` does.
-/

/-- The operation `EngineRegistry.unregister`: remove only when present. -/
def regUnregister (s : Finset ℕ) (x : ℕ) : Finset ℕ :=
  if x ∈ s then s.erase x else s

/-- The operation `EngineRegistry.register`. -/
def regRegister (s : Finset ℕ) (x : ℕ) : Finset ℕ := insert x s

/-- One `engine.stop()` call as seen by `shutdown_all`'s loop body. -/
def stopCall (raisesOn : ℕ → Bool) (e : ℕ) (s : Finset ℕ) : Except String (Finset ℕ) :=
  if raisesOn e then .error "stop failed" else .ok (regUnregister s e)

/-- The `for engine in list(cls._engines)` loop with its `try`/`except`:
a raising `stop()` is caught and the loop continues.  Returns the final
registry and the instances whose `stop()` was invoked, in order. -/
def shutdownLoop (raisesOn : ℕ → Bool) : List ℕ → Finset ℕ → Finset ℕ × List ℕ
  | [], s => (s, [])
  | e :: rest, s =>
    let s' := match stopCall raisesOn e s with
      | .ok s2 => s2
      | .error _ => s
    let out := shutdownLoop raisesOn rest s'
    (out.1, e :: out.2)

/-- A list enumerates the registry set exactly once: this is what
`list(cls._engines)` produces, in an order CPython does not specify. -/
def Enumerates (snapshot : List ℕ) (s : Finset ℕ) : Prop :=
  snapshot.Nodup ∧ ∀ x, x ∈ snapshot ↔ x ∈ s

/-- The operation `EngineRegistry.shutdown_all()`: `snapshot = list(cls._engines)` is
taken before the loop, then the loop runs over it. -/
def shutdownAll (raisesOn : ℕ → Bool) (snapshot : List ℕ) (s : Finset ℕ) :
    Finset ℕ × List ℕ :=
  shutdownLoop raisesOn snapshot s

/-! ## Chess rules

Modelled from the spec: chess rule logic (FEN parsing, move legality,
terminal-state detection) is delegated to a chess library that is not
part of this repository; it is embedded here as the standard rules of
chess (legal moves, check, checkmate, stalemate, insufficient
material), which is what that library computes.

Squares are indexed 0–63 with index `r * 8 + f`, file `f` 0–7 = a–h,
rank `r` 0–7 = 1–8.
-/

inductive PColor where
  | white
  | black
deriving DecidableEq

def PColor.other : PColor → PColor
  | .white => .black
  | .black => .white

inductive PKind where
  | pawn
  | knight
  | bishop
  | rook
  | queen
  | king
deriving DecidableEq

structure CPiece where
  color : PColor
  kind : PKind
deriving DecidableEq

structure BoardPos where
  /-- square contents, index 0 = a1 … 63 = h8 (length 64) -/
  squares : List (Option CPiece)
  turn : PColor
  castleWK : Bool
  castleWQ : Bool
  castleBK : Bool
  castleBQ : Bool
  epSquare : Option ℕ
  halfmove : ℕ
  fullmove : ℕ
deriving DecidableEq

def pieceAt (b : BoardPos) (i : ℕ) : Option CPiece := b.squares.getD i none

def fileOf (i : ℕ) : Int := Int.ofNat (i % 8)

def rankOf (i : ℕ) : Int := Int.ofNat (i / 8)

def onBoard (f r : Int) : Bool := 0 ≤ f && f < 8 && 0 ≤ r && r < 8

def sqOf (f r : Int) : ℕ := r.toNat * 8 + f.toNat

def pieceAtFR (b : BoardPos) (f r : Int) : Option CPiece :=
  if onBoard f r then pieceAt b (sqOf f r) else none

def hasPieceFR (b : BoardPos) (f r : Int) (p : CPiece) : Bool :=
  decide (pieceAtFR b f r = some p)

def knightDeltas : List (Int × Int) :=
  [(1, 2), (2, 1), (2, -1), (1, -2), (-1, -2), (-2, -1), (-2, 1), (-1, 2)]

def kingDeltas : List (Int × Int) :=
  [(1, 0), (1, 1), (0, 1), (-1, 1), (-1, 0), (-1, -1), (0, -1), (1, -1)]

def bishopDirs : List (Int × Int) := [(1, 1), (1, -1), (-1, 1), (-1, -1)]

def rookDirs : List (Int × Int) := [(1, 0), (-1, 0), (0, 1), (0, -1)]

/-- First piece encountered walking from `(f, r)` in direction `(df, dr)`. -/
def firstPieceFrom (b : BoardPos) : Int → Int → Int → Int → ℕ → Option CPiece
  | _, _, _, _, 0 => none
  | f, r, df, dr, fuel + 1 =>
    let f' := f + df
    let r' := r + dr
    if onBoard f' r' then
      match pieceAtFR b f' r' with
      | some p => some p
      | none => firstPieceFrom b f' r' df dr fuel
    else none

/-- Does some piece of colour `c` attack square `t`? -/
def attacksSquare (b : BoardPos) (c : PColor) (t : ℕ) : Bool :=
  let tf := fileOf t
  let tr := rankOf t
  let pawnDr : Int := match c with | .white => -1 | .black => 1
  ([(-1 : Int), 1].any fun df => hasPieceFR b (tf + df) (tr + pawnDr) ⟨c, .pawn⟩)
  || (knightDeltas.any fun d => hasPieceFR b (tf + d.1) (tr + d.2) ⟨c, .knight⟩)
  || (kingDeltas.any fun d => hasPieceFR b (tf + d.1) (tr + d.2) ⟨c, .king⟩)
  || (bishopDirs.any fun d =>
      match firstPieceFrom b tf tr d.1 d.2 7 with
      | some p => p.color = c && (p.kind = PKind.bishop || p.kind = PKind.queen)
      | none => false)
  || (rookDirs.any fun d =>
      match firstPieceFrom b tf tr d.1 d.2 7 with
      | some p => p.color = c && (p.kind = PKind.rook || p.kind = PKind.queen)
      | none => false)

def kingSquare (b : BoardPos) (c : PColor) : Option ℕ :=
  (List.range 64).find? fun i => pieceAt b i = some ⟨c, .king⟩

def inCheck (b : BoardPos) (c : PColor) : Bool :=
  match kingSquare b c with
  | some k => attacksSquare b c.other k
  | none => false

structure CMove where
  src : ℕ
  dst : ℕ
  promo : Option PKind
deriving DecidableEq

/-- Play a move on the board (capture, en passant, promotion, castling
rook shift, rights and counters updated); side to move flips. -/
def applyMove (b : BoardPos) (m : CMove) : BoardPos :=
  match pieceAt b m.src with
  | none => b
  | some p =>
    let moved : CPiece := match m.promo with
      | some k => ⟨p.color, k⟩
      | none => p
    let isEp : Bool :=
      p.kind = PKind.pawn && b.epSquare = some m.dst && decide (pieceAt b m.dst = none)
        && fileOf m.dst ≠ fileOf m.src
    let isCapture : Bool := decide (pieceAt b m.dst ≠ none) || isEp
    let sqs1 := (b.squares.set m.src none).set m.dst (some moved)
    let sqs2 := if isEp then sqs1.set (sqOf (fileOf m.dst) (rankOf m.src)) none else sqs1
    let sqs3 :=
      if p.kind = PKind.king && fileOf m.dst - fileOf m.src = 2 then
        (sqs2.set (m.src + 3) none).set (m.src + 1) (some ⟨p.color, .rook⟩)
      else if p.kind = PKind.king && fileOf m.src - fileOf m.dst = 2 then
        (sqs2.set (m.src - 4) none).set (m.src - 1) (some ⟨p.color, .rook⟩)
      else sqs2
    let newEp : Option ℕ :=
      if p.kind = PKind.pawn && (rankOf m.dst - rankOf m.src = 2
          || rankOf m.src - rankOf m.dst = 2) then
        some (sqOf (fileOf m.src) ((rankOf m.src + rankOf m.dst) / 2))
      else none
    { squares := sqs3
      turn := b.turn.other
      castleWK := b.castleWK && m.src ≠ 4 && m.src ≠ 7 && m.dst ≠ 7
      castleWQ := b.castleWQ && m.src ≠ 4 && m.src ≠ 0 && m.dst ≠ 0
      castleBK := b.castleBK && m.src ≠ 60 && m.src ≠ 63 && m.dst ≠ 63
      castleBQ := b.castleBQ && m.src ≠ 60 && m.src ≠ 56 && m.dst ≠ 56
      epSquare := newEp
      halfmove := if p.kind = PKind.pawn || isCapture then 0 else b.halfmove + 1
      fullmove := b.fullmove + (match b.turn with | .white => 0 | .black => 1) }

/-- Targets along one sliding ray for a piece of colour `c`. -/
def slideTargets (b : BoardPos) (c : PColor) : Int → Int → Int → Int → ℕ → List ℕ
  | _, _, _, _, 0 => []
  | f, r, df, dr, fuel + 1 =>
    let f' := f + df
    let r' := r + dr
    if onBoard f' r' then
      match pieceAtFR b f' r' with
      | none => sqOf f' r' :: slideTargets b c f' r' df dr fuel
      | some q => if q.color = c then [] else [sqOf f' r']
    else []

/-- Single-step targets (knight and king patterns). -/
def stepTargets (b : BoardPos) (c : PColor) (f r : Int) (deltas : List (Int × Int)) :
    List ℕ :=
  deltas.filterMap fun d =>
    let f' := f + d.1
    let r' := r + d.2
    if onBoard f' r' then
      match pieceAtFR b f' r' with
      | none => some (sqOf f' r')
      | some q => if q.color = c then none else some (sqOf f' r')
    else none

/-- All four promotions when the destination is the last rank, else the
plain move. -/
def promoteAll (c : PColor) (src dst : ℕ) : List CMove :=
  let lastRank : Int := match c with | .white => 7 | .black => 0
  if rankOf dst = lastRank then
    [⟨src, dst, some .queen⟩, ⟨src, dst, some .rook⟩,
     ⟨src, dst, some .bishop⟩, ⟨src, dst, some .knight⟩]
  else [⟨src, dst, none⟩]

def pawnMoves (b : BoardPos) (c : PColor) (i : ℕ) : List CMove :=
  let f := fileOf i
  let r := rankOf i
  let dr : Int := match c with | .white => 1 | .black => -1
  let startR : Int := match c with | .white => 1 | .black => 6
  let pushes :=
    if onBoard f (r + dr) && decide (pieceAtFR b f (r + dr) = none) then
      promoteAll c i (sqOf f (r + dr))
      ++ (if r = startR && decide (pieceAtFR b f (r + 2 * dr) = none) then
            [⟨i, sqOf f (r + 2 * dr), none⟩]
          else [])
    else []
  let captures :=
    ([(-1 : Int), 1].filterMap fun df =>
      let f' := f + df
      let r' := r + dr
      if onBoard f' r' then
        match pieceAtFR b f' r' with
        | some q => if q.color = c then none else some (sqOf f' r')
        | none => if b.epSquare = some (sqOf f' r') then some (sqOf f' r') else none
      else none).flatMap (fun t => promoteAll c i t)
  pushes ++ captures

/-- Castling moves available to `c` (rights, empty path, king not
passing through an attacked square). -/
def castleMoves (b : BoardPos) (c : PColor) : List CMove :=
  match c with
  | .white =>
    (if b.castleWK && decide (pieceAt b 4 = some ⟨.white, .king⟩)
        && decide (pieceAt b 7 = some ⟨.white, .rook⟩)
        && decide (pieceAt b 5 = none) && decide (pieceAt b 6 = none)
        && !attacksSquare b .black 4 && !attacksSquare b .black 5
        && !attacksSquare b .black 6 then
      [⟨4, 6, none⟩]
    else [])
    ++ (if b.castleWQ && decide (pieceAt b 4 = some ⟨.white, .king⟩)
        && decide (pieceAt b 0 = some ⟨.white, .rook⟩)
        && decide (pieceAt b 1 = none) && decide (pieceAt b 2 = none)
        && decide (pieceAt b 3 = none)
        && !attacksSquare b .black 4 && !attacksSquare b .black 3
        && !attacksSquare b .black 2 then
      [⟨4, 2, none⟩]
    else [])
  | .black =>
    (if b.castleBK && decide (pieceAt b 60 = some ⟨.black, .king⟩)
        && decide (pieceAt b 63 = some ⟨.black, .rook⟩)
        && decide (pieceAt b 61 = none) && decide (pieceAt b 62 = none)
        && !attacksSquare b .white 60 && !attacksSquare b .white 61
        && !attacksSquare b .white 62 then
      [⟨60, 62, none⟩]
    else [])
    ++ (if b.castleBQ && decide (pieceAt b 60 = some ⟨.black, .king⟩)
        && decide (pieceAt b 56 = some ⟨.black, .rook⟩)
        && decide (pieceAt b 57 = none) && decide (pieceAt b 58 = none)
        && decide (pieceAt b 59 = none)
        && !attacksSquare b .white 60 && !attacksSquare b .white 59
        && !attacksSquare b .white 58 then
      [⟨60, 58, none⟩]
    else [])

/-- Pseudo-legal moves of the piece on square `i` (own-king safety not
yet checked). -/
def pieceMoves (b : BoardPos) (i : ℕ) : List CMove :=
  match pieceAt b i with
  | none => []
  | some p =>
    if p.color ≠ b.turn then []
    else
      let f := fileOf i
      let r := rankOf i
      match p.kind with
      | .pawn => pawnMoves b p.color i
      | .knight => (stepTargets b p.color f r knightDeltas).map fun t => ⟨i, t, none⟩
      | .bishop => (bishopDirs.flatMap fun d => slideTargets b p.color f r d.1 d.2 7).map
          fun t => ⟨i, t, none⟩
      | .rook => (rookDirs.flatMap fun d => slideTargets b p.color f r d.1 d.2 7).map
          fun t => ⟨i, t, none⟩
      | .queen => ((bishopDirs ++ rookDirs).flatMap fun d =>
          slideTargets b p.color f r d.1 d.2 7).map fun t => ⟨i, t, none⟩
      | .king => ((stepTargets b p.color f r kingDeltas).map fun t => (⟨i, t, none⟩ : CMove))
          ++ castleMoves b p.color

def pseudoMoves (b : BoardPos) : List CMove :=
  (List.range 64).flatMap fun i => pieceMoves b i

def isLegalMove (b : BoardPos) (m : CMove) : Bool :=
  !inCheck (applyMove b m) b.turn

def legalMoves (b : BoardPos) : List CMove :=
  (pseudoMoves b).filter (isLegalMove b)

def isCheckmate (b : BoardPos) : Bool :=
  inCheck b b.turn && (legalMoves b).isEmpty

def isStalemate (b : BoardPos) : Bool :=
  !inCheck b b.turn && (legalMoves b).isEmpty

def occupiedPieces (b : BoardPos) : List (ℕ × CPiece) :=
  (List.range 64).filterMap fun i => (pieceAt b i).map fun p => (i, p)

/-- Is the square dark-coloured?  (a1 is dark.) -/
def sqIsDark (i : ℕ) : Bool := (i % 8 + i / 8) % 2 = 0

/-- One side has insufficient mating material (the chess library's
per-colour criterion: no pawn/rook/queen; a knight only in a lone-minor
setting; bishops only when all bishops stand on one square colour). -/
def hasInsufficientMaterial (b : BoardPos) (c : PColor) : Bool :=
  let mine := (occupiedPieces b).filter fun x => x.2.color = c
  let oppo := (occupiedPieces b).filter fun x => x.2.color = c.other
  if mine.any fun x =>
      x.2.kind = PKind.pawn || x.2.kind = PKind.rook || x.2.kind = PKind.queen then
    false
  else if mine.any fun x => x.2.kind = PKind.knight then
    decide (mine.length ≤ 2)
      && !(oppo.any fun x => x.2.kind ≠ PKind.king && x.2.kind ≠ PKind.queen)
  else if mine.any fun x => x.2.kind = PKind.bishop then
    let bishops := (occupiedPieces b).filter fun x => x.2.kind = PKind.bishop
    (bishops.all (fun x => sqIsDark x.1) || bishops.all fun x => !sqIsDark x.1)
      && !((occupiedPieces b).any fun x => x.2.kind = PKind.pawn)
      && !((occupiedPieces b).any fun x => x.2.kind = PKind.knight)
  else true

def insufficientMaterial (b : BoardPos) : Bool :=
  hasInsufficientMaterial b .white && hasInsufficientMaterial b .black

/-! ### FEN parsing -/

def pieceOfChar : Char → Option CPiece
  | 'P' => some ⟨.white, .pawn⟩
  | 'N' => some ⟨.white, .knight⟩
  | 'B' => some ⟨.white, .bishop⟩
  | 'R' => some ⟨.white, .rook⟩
  | 'Q' => some ⟨.white, .queen⟩
  | 'K' => some ⟨.white, .king⟩
  | 'p' => some ⟨.black, .pawn⟩
  | 'n' => some ⟨.black, .knight⟩
  | 'b' => some ⟨.black, .bishop⟩
  | 'r' => some ⟨.black, .rook⟩
  | 'q' => some ⟨.black, .queen⟩
  | 'k' => some ⟨.black, .king⟩
  | _ => none

def splitChar (sep : Char) : List Char → List (List Char)
  | [] => [[]]
  | c :: cs =>
    match splitChar sep cs with
    | [] => [[c]]
    | g :: gs => if c = sep then [] :: g :: gs else (c :: g) :: gs

/-- Expand one FEN rank (files a–h) into eight squares. -/
def parseFenRank : List Char → List (Option CPiece) → Option (List (Option CPiece))
  | [], acc => if acc.length = 8 then some acc else none
  | c :: cs, acc =>
    if c.isDigit && '1' ≤ c && c ≤ '8' then
      parseFenRank cs (acc ++ List.replicate (c.toNat - '0'.toNat) none)
    else
      match pieceOfChar c with
      | some p => parseFenRank cs (acc ++ [some p])
      | none => none

def parseFenPlacement (s : List Char) : Option (List (Option CPiece)) :=
  let ranks := splitChar '/' s
  if ranks.length = 8 then
    match ranks.mapM (fun rk => parseFenRank rk []) with
    | some parsed => some parsed.reverse.flatten
    | none => none
  else none

def parseFenTurn : String → Option PColor
  | "w" => some .white
  | "b" => some .black
  | _ => none

def parseFenCastling (s : String) : Option (Bool × Bool × Bool × Bool) :=
  if s = "-" then some (false, false, false, false)
  else if s ≠ "" && s.toList.all (fun c => c = 'K' || c = 'Q' || c = 'k' || c = 'q') then
    some (s.toList.contains 'K', s.toList.contains 'Q',
      s.toList.contains 'k', s.toList.contains 'q')
  else none

/-- Python `int(s)` on a non-negative decimal field. -/
def strToNat (s : String) : Option ℕ :=
  if s.toList ≠ [] && s.toList.all Char.isDigit then
    some (s.toList.foldl (fun n c => n * 10 + (c.toNat - '0'.toNat)) 0)
  else none

def parseFenEp (s : String) : Option (Option ℕ) :=
  if s = "-" then some none
  else
    match s.toList with
    | [fc, rc] =>
      if 'a' ≤ fc && fc ≤ 'h' && '1' ≤ rc && rc ≤ '8' then
        some (some ((rc.toNat - '1'.toNat) * 8 + (fc.toNat - 'a'.toNat)))
      else none
    | _ => none

/-- Model of `chess.Board(fen)`: parse a six-field FEN record or fail. -/
def parseFen (fen : String) : Except String BoardPos :=
  match pySplit fen with
  | [placement, turnF, castleF, epF, halfF, fullF] =>
    match parseFenPlacement placement.toList, parseFenTurn turnF,
        parseFenCastling castleF, parseFenEp epF,
        strToNat halfF, strToNat fullF with
    | some sqs, some t, some cas, some ep, some hm, some fm =>
      .ok ⟨sqs, t, cas.1, cas.2.1, cas.2.2.1, cas.2.2.2, ep, hm, fm⟩
    | _, _, _, _, _, _ => .error "invalid fen"
  | _ => .error "invalid fen"

/-! ## Service Facade — `main.get_game_status_tool` -/

/-- Model of `get_game_status_tool`: parse the FEN, then classify with the
checkmate / stalemate / insufficient-material tests, winner set only on
checkmate (the side not to move). -/
def getGameStatusTool (fen : String) : Except String (String × Option String) :=
  match parseFen fen with
  | .error e => .error ("Invalid FEN format: " ++ e)
  | .ok b =>
    if isCheckmate b then
      .ok ("CHECKMATE", some (match b.turn with | .white => "BLACK" | .black => "WHITE"))
    else if isStalemate b then
      .ok ("STALEMATE", none)
    else if insufficientMaterial b then
      .ok ("DRAW", none)
    else
      .ok ("IN_PROGRESS", none)

/-- The starting-position FEN of the end-to-end scenarios. -/
def startFen : String := "rnbqkbnr/pppppppp/8/8/8/8/PPPPPPPP/RNBQKBNR w KQkq - 0 1"

/-- The fool's-mate FEN of scenario 3. -/
def foolsMateFen : String := "rnb1kbnr/pppp1ppp/8/4p3/6Pq/5P2/PPPPP2P/RNBQKBNR w KQkq - 0 1"

/-! ## Statement-level predicates and concrete environments -/

/-- The read loop neither stops nor matches on this event: a line whose
stripped form does not start with `pat`, or a poll that finds the child
alive. -/
def keepsReading (pat : String) : ReadEvent → Prop
  | .deadline => False
  | .line s => strStarts (pyStrip s) pat = false
  | .noData alive => alive = true

/-- The stripped non-empty lines delivered by a trace, in order: what
the read loop accumulates. -/
def linesOf (evs : List ReadEvent) : List String :=
  evs.filterMap fun e =>
    match e with
    | .line s => if pyStrip s = "" then none else some (pyStrip s)
    | _ => none

/-- If this event is a line, its stripped form does not start with `pat`. -/
def lineNoMatch (pat : String) : ReadEvent → Prop
  | .line s => strStarts (pyStrip s) pat = false
  | _ => True

/-- Construction outcome for a child that completes the handshake. -/
def c5okOutcome : InitOutcome :=
  ⟨["uci", "setoption name Hash value 128", "setoption name Threads value 4", "isready"],
    true, true, .ok ()⟩

/-- Construction outcome for a child that never says `uciok`. -/
def c5failOutcome : InitOutcome :=
  ⟨["uci"], false, false,
    .error (.stockfish "Failed to initialize engine: Failed to initialize UCI mode")⟩

/-- The error `get_best_move` raises when the read loop times out with
nothing accumulated: the timeout wrapped twice on its way out. -/
def c10err : PyErr :=
  .stockfish
    "Error getting best move: Error reading engine response: Timeout waiting for response (waited 30.0s)"

/-- Resolver environment: `ENGINE_PATH` names a usable binary. -/
def envC4ok : ResolveEnv :=
  { enginePath := some "/good/stockfish", engineOS := none,
    engineName := "stockfish", engineVersion := "17.1",
    platformSystem := "linux", pkgRoot := "/app",
    fs := fun p => if p = "/good/stockfish" then ⟨true, true⟩ else ⟨false, false⟩ }

/-- Resolver environment: `ENGINE_PATH` invalid and nothing else found
(the fallback path does not exist). -/
def envC4inv : ResolveEnv :=
  { enginePath := some "/bad/engine", engineOS := none,
    engineName := "stockfish", engineVersion := "17.1",
    platformSystem := "linux", pkgRoot := "/app",
    fs := fun _ => ⟨false, false⟩ }

/-- Resolver environment: `ENGINE_PATH` invalid, system paths absent,
and the fallback path exists but is not executable. -/
def envC4ne : ResolveEnv :=
  { enginePath := some "/bad/engine", engineOS := none,
    engineName := "stockfish", engineVersion := "17.1",
    platformSystem := "linux", pkgRoot := "/app",
    fs := fun p =>
      if p = "/app/engines/stockfish/17.1/linux/stockfish" then ⟨true, false⟩
      else ⟨false, false⟩ }

/-- Resolver environment on an unrecognized host OS with no usable
binary anywhere and no `ENGINE_OS` override. -/
def envC9 : ResolveEnv :=
  { enginePath := some "/bad/engine", engineOS := none,
    engineName := "stockfish", engineVersion := "17.1",
    platformSystem := "sunos", pkgRoot := "/app",
    fs := fun _ => ⟨false, false⟩ }

/-! ## Helper lemmas -/

theorem charsIsPrefixOf_append (l1 l2 : List Char) :
    List.isPrefixOf l1 (l1 ++ l2) = true := by
  induction l1 with
  | nil => cases l2 <;> rfl
  | cons c t ih => simp [List.isPrefixOf, ih]

theorem strStarts_append_self (a b : String) : strStarts (a ++ b) a = true := by
  cases a with
  | mk da =>
    cases b with
    | mk db =>
      show List.isPrefixOf da (String.data ⟨da ++ db⟩) = true
      exact charsIsPrefixOf_append da db

theorem find?_append_of_none {α : Type} (p : α → Bool) (l1 l2 : List α)
    (h : l1.find? p = none) : (l1 ++ l2).find? p = l2.find? p := by
  rw [List.find?_append, h]
  rfl

theorem lowerStr_append (a b : String) : lowerStr (a ++ b) = lowerStr a ++ lowerStr b := by
  cases a with
  | mk da =>
    cases b with
    | mk db =>
      show String.mk ((da ++ db).map Char.toLower)
        = String.mk (da.map Char.toLower) ++ String.mk (db.map Char.toLower)
      simp [List.map_append]
      rfl

/-! ### Read-loop lemmas -/

theorem readLoop_deadline_eq (pat tRepr : String) (hp : pat ≠ "") :
    ∀ (pre rest : List ReadEvent) (acc : List String),
      (∀ e ∈ pre, keepsReading pat e) →
      readLoop (some pat) tRepr (pre ++ ReadEvent.deadline :: rest) acc
        = if acc ++ linesOf pre = [] then
            some (.error (.stockfish (readWrap (timeoutMsg tRepr))))
          else some (.ok (acc ++ linesOf pre)) := by
  intro pre
  induction pre with
  | nil =>
    intro rest acc _
    simp only [List.nil_append, linesOf, List.filterMap_nil, List.append_nil]
    rcases acc with _ | ⟨a, acc'⟩
    · simp [readLoop, optTruthy, hp]
    · simp [readLoop, optTruthy, hp]
  | cons e pre ih =>
    intro rest acc hk
    have hke : keepsReading pat e := hk e (List.mem_cons_self _ _)
    have hk' : ∀ x ∈ pre, keepsReading pat x := fun x hx => hk x (List.mem_cons_of_mem _ hx)
    cases e with
    | deadline => exact absurd hke (by simp [keepsReading])
    | line s =>
      have hs : strStarts (pyStrip s) pat = false := hke
      by_cases ht : pyStrip s = ""
      · have hrec := ih rest acc hk'
        simp only [List.cons_append, readLoop, ht, if_pos rfl, if_true]
        simpa [linesOf, ht] using hrec
      · have hrec := ih rest (acc ++ [pyStrip s]) hk'
        simp only [List.cons_append, readLoop, if_neg ht, hs, Bool.and_false]
        simpa [linesOf, ht] using hrec
    | noData alive =>
      have ha : alive = true := hke
      subst ha
      have hrec := ih rest acc hk'
      simpa [readLoop, linesOf] using hrec

/-- Every accumulated line that the read loop can hand back under a
trace whose lines never match `pat` is itself a non-matching line. -/
theorem readLoop_ok_no_match (pat tRepr : String) :
    ∀ (evs : List ReadEvent) (acc rs : List String),
      (∀ e ∈ evs, lineNoMatch pat e) →
      (∀ a ∈ acc, strStarts a pat = false) →
      readLoop (some pat) tRepr evs acc = some (.ok rs) →
      ∀ r ∈ rs, strStarts r pat = false := by
  intro evs
  induction evs with
  | nil =>
    intro acc rs _ _ h
    simp [readLoop] at h
  | cons e evs ih =>
    intro acc rs hnm hacc h
    have hne : lineNoMatch pat e := hnm e (List.mem_cons_self _ _)
    have hnm' : ∀ x ∈ evs, lineNoMatch pat x := fun x hx => hnm x (List.mem_cons_of_mem _ hx)
    cases e with
    | deadline =>
      simp only [readLoop] at h
      by_cases hc : (optTruthy (some pat) && !acc.isEmpty) = true
      · rw [if_pos hc] at h
        have : acc = rs := by simpa using h
        subst this
        exact hacc
      · rw [if_neg hc] at h
        simp at h
    | line s =>
      have hs : strStarts (pyStrip s) pat = false := hne
      by_cases ht : pyStrip s = ""
      · simp only [readLoop, if_pos ht] at h
        exact ih acc rs hnm' hacc h
      · simp only [readLoop, if_neg ht, hs, Bool.and_false] at h
        refine ih (acc ++ [pyStrip s]) rs hnm' ?_ h
        intro a ha
        rcases List.mem_append.mp ha with ha | ha
        · exact hacc a ha
        · rw [List.mem_singleton.mp ha]
          exact hs
    | noData alive =>
      cases alive with
      | true =>
        simp only [readLoop, if_pos rfl] at h
        exact ih acc rs hnm' hacc h
      | false =>
        simp [readLoop] at h

/-! ## Claim theorems -/

/-- C1 (counterexample): with `until = "bestmove"`, a single
non-matching `info` line followed by deadline expiry makes
`_read_response` return normally with the accumulated non-matching
lines instead of failing with a timeout error — the returned line does
not start with the prefix. -/
theorem c1_counterexample :
    readResponse (some "bestmove") "30.0"
        [ReadEvent.line "info depth 1", ReadEvent.deadline]
      = some (Except.ok ["info depth 1"])
    ∧ strStarts "info depth 1" "bestmove" = false := by
  constructor
  · rfl
  · decide

/-- C1 (amended): when the deadline elapses before any line whose
stripped form starts with the (non-empty) prefix has been read,
`_read_response` fails with the wrapped timeout error only if no
non-empty line was accumulated; if at least one non-matching line was
accumulated it instead returns those lines normally, without the prefix
line. -/
theorem c1_read_deadline (pat tRepr : String) (hp : pat ≠ "")
    (pre rest : List ReadEvent) (hpre : ∀ e ∈ pre, keepsReading pat e) :
    readResponse (some pat) tRepr (pre ++ ReadEvent.deadline :: rest)
      = if linesOf pre = [] then
          some (.error (.stockfish (readWrap (timeoutMsg tRepr))))
        else some (.ok (linesOf pre)) := by
  have h := readLoop_deadline_eq pat tRepr hp pre rest [] hpre
  simpa [readResponse] using h

/-- C1 witness: the amended behaviour at a concrete trace — timeout
with an empty accumulator raises, and separately a non-empty
accumulator is returned. -/
theorem c1_read_deadline_witness :
    readResponse (some "bestmove") "30.0" [ReadEvent.noData true, ReadEvent.deadline]
      = some (Except.error (.stockfish (readWrap (timeoutMsg "30.0"))))
    ∧ readResponse (some "bestmove") "30.0"
        [ReadEvent.line "info depth 20", ReadEvent.deadline]
      = some (Except.ok ["info depth 20"]) := by
  constructor
  · have h := c1_read_deadline "bestmove" "30.0" (by decide) [ReadEvent.noData true] []
      (by
        intro e he
        have he' : e = ReadEvent.noData true := by simpa using he
        subst he'
        exact rfl)
    exact h.trans (by decide)
  · have h := c1_read_deadline "bestmove" "30.0" (by decide) [ReadEvent.line "info depth 20"] []
      (by
        intro e he
        have he' : e = ReadEvent.line "info depth 20" := by simpa using he
        subst he'
        exact (by decide : strStarts (pyStrip "info depth 20") "bestmove" = false))
    exact h.trans (by decide)

/-! ### Tokenization lemmas -/

theorem stringMk_toList (s : String) : (⟨s.toList⟩ : String) = s := by
  cases s
  rfl

theorem pySplitAux_nonws :
    ∀ (l acc : List Char), (∀ c ∈ l, isWsChar c = false) →
      pySplitAux l acc = pySplitAux [] (l.reverse ++ acc) := by
  intro l
  induction l with
  | nil =>
    intro acc _
    simp
  | cons c cs ih =>
    intro acc h
    have hc : isWsChar c = false := h c (List.mem_cons_self _ _)
    have h' : ∀ x ∈ cs, isWsChar x = false := fun x hx => h x (List.mem_cons_of_mem _ hx)
    have harg : (c :: cs).reverse ++ acc = cs.reverse ++ (c :: acc) := by
      simp [List.reverse_cons, List.append_assoc]
    rw [harg]
    rw [show pySplitAux (c :: cs) acc = pySplitAux cs (c :: acc) from by
      simp [pySplitAux, hc]]
    exact ih (c :: acc) h'

theorem pySplitAux_single (m : String) (hm : m.toList ≠ [])
    (hws : ∀ c ∈ m.toList, isWsChar c = false) :
    pySplitAux m.toList [] = [m] := by
  rw [pySplitAux_nonws m.toList [] hws]
  have hne : (m.toList.reverse.isEmpty) = false := by
    rcases hml : m.toList with _ | ⟨a, l⟩
    · exact absurd hml hm
    · simp
  simp only [List.append_nil, pySplitAux, hne, Bool.false_eq_true, if_false]
  rw [List.reverse_reverse]
  rw [stringMk_toList]

theorem pySplit_bestmove (m : String) (hm : m.toList ≠ [])
    (hws : ∀ c ∈ m.toList, isWsChar c = false) :
    pySplit ("bestmove " ++ m) = ["bestmove", m] := by
  have h0 : pySplit ("bestmove " ++ m) = "bestmove" :: pySplitAux m.toList [] := rfl
  rw [h0, pySplitAux_single m hm hws]

theorem parseBestMove_skip (pre : List String) (x : String)
    (hpre : ∀ l ∈ pre, strStarts l "bestmove" = false) :
    parseBestMove (pre ++ [x]) = parseBestMove [x] := by
  unfold parseBestMove
  rw [find?_append_of_none _ pre _
    (List.find?_eq_none.mpr (fun l hl => by simp [hpre l hl]))]

/-- C2 (counterexample): on the active class implementation, a child
answering `bestmove (none)` makes `get_best_move` return the literal
`(none)` as the move — it does not fail. -/
theorem c2_counterexample :
    (getBestMove true startFen [] [ReadEvent.line "bestmove (none)"]).2
      = some (Except.ok "(none)") := by
  rfl

/-- C2 (amended): `best_move` tokenizes the first `bestmove` line and
returns its second whitespace-delimited token; `StockfishEngine.get_best_move`
returns that token unconditionally — including the literal `(none)` —
while only the legacy module-level `get_best_move` turns `(none)` into
a `StockfishError`. -/
theorem c2_none_token (pre : List String) (m : String)
    (hpre : ∀ l ∈ pre, strStarts l "bestmove" = false)
    (hm : m.toList ≠ []) (hws : ∀ c ∈ m.toList, isWsChar c = false) :
    parseBestMove (pre ++ ["bestmove " ++ m]) = .ok m
    ∧ parseBestMove (pre ++ ["bestmove (none)"]) = .ok "(none)"
    ∧ legacyParseBestMove (pre ++ ["bestmove (none)"])
        = .error (.stockfish "No legal moves in position") := by
  refine ⟨?_, ?_, ?_⟩
  · rw [parseBestMove_skip pre _ hpre]
    have hx : strStarts ("bestmove " ++ m) "bestmove" = true :=
      strStarts_append_self "bestmove" (" " ++ m)
    unfold parseBestMove
    simp only [List.find?, hx]
    rw [pySplit_bestmove m hm hws]
    rfl
  · rw [parseBestMove_skip pre _ hpre]
    rfl
  · unfold legacyParseBestMove
    rw [List.reverse_append]
    have hx : strStarts "bestmove (none)" "bestmove" = true := by decide
    simp only [List.reverse_cons, List.reverse_nil, List.nil_append, List.cons_append,
      List.find?, hx]
    rfl

/-- C2 witness: the amended statement at a concrete exchange — second
token `e2e4` returned, `(none)` returned by the class implementation,
rejected by the legacy implementation. -/
theorem c2_none_token_witness :
    parseBestMove (["info depth 1"] ++ ["bestmove " ++ "e2e4"]) = .ok "e2e4"
    ∧ parseBestMove (["info depth 1"] ++ ["bestmove (none)"]) = .ok "(none)"
    ∧ legacyParseBestMove (["info depth 1"] ++ ["bestmove (none)"])
        = .error (.stockfish "No legal moves in position") :=
  c2_none_token ["info depth 1"] "e2e4"
    (by
      intro l hl
      have hl' : l = "info depth 1" := by simpa using hl
      subst hl'
      decide)
    (by decide) (by decide)

/-- C3 (counterexample): a live child that stays alive past the 5-second
grace window is force-killed directly — `terminate()` is never called
and no intermediate one-second wait happens, contrary to the claimed
terminate-then-kill escalation. -/
theorem c3_counterexample :
    (stopEngine ⟨true, false, false, false, false, true⟩).quitAttempted = true
    ∧ (stopEngine ⟨true, false, false, false, false, true⟩).waited5 = true
    ∧ (stopEngine ⟨true, false, false, false, false, true⟩).killCalled = true
    ∧ (stopEngine ⟨true, false, false, false, false, true⟩).terminateCalled = false := by
  decide

/-- C3 (amended): `stop()` never raises and is idempotent: with no
process handle it returns immediately leaving the registry untouched;
with a live child it sends `quit` and waits up to 5 seconds; on any
failure there (send failure or wait timeout) it force-kills directly,
never calling `terminate()`; whenever a handle was present it ends with
the handle cleared and the instance unregistered. -/
theorem c3_stop_behavior (env : StopEnv) :
    stopEngine env =
      { quitAttempted := env.procSome && !env.alreadyExited,
        waited5 := env.procSome && (!env.alreadyExited && !env.quitSendFails),
        terminateCalled := false,
        killCalled := env.procSome
          && (!env.alreadyExited && (env.quitSendFails || !env.exitsWithin5)),
        procSome := false,
        registered := !env.procSome && env.registered,
        raised := false }
    ∧ stopEngine { env with procSome := false } =
      { quitAttempted := false, waited5 := false, terminateCalled := false,
        killCalled := false, procSome := false, registered := env.registered,
        raised := false } := by
  obtain ⟨a, b, c, d, e, f⟩ := env
  constructor
  · cases a <;> cases b <;> cases c <;> cases d <;> cases e <;> cases f <;> rfl
  · cases b <;> cases c <;> cases d <;> cases e <;> cases f <;> rfl

/-! ### Resolver lemmas -/

theorem resolveFromSystem_none (env : ResolveEnv)
    (h : ∀ p ∈ systemPaths, isUsable env p = false) :
    resolveFromSystem env = resolveFallback env := by
  unfold resolveFromSystem
  rw [List.find?_eq_none.mpr (fun p hp => by simp [h p hp])]

set_option maxRecDepth 8192 in
/-- C4 (counterexample): `ENGINE_PATH` set but invalid, no system
binary, and a fallback file that exists but is not executable: every
step fails, yet the raised error message does not contain the
configured path. -/
theorem c4_counterexample :
    getEnginePath envC4ne
      = Except.error (fallbackErrNotExec "/app/engines/stockfish/17.1/linux/stockfish")
    ∧ containsStr (fallbackErrNotExec "/app/engines/stockfish/17.1/linux/stockfish")
        "/bad/engine" = false := by
  constructor
  · decide
  · decide

/-- C4 (amended): a configured executable path is returned exactly; an
invalid configured path falls through to the system locations and the
fallback; and when everything fails because the fallback file does not
exist, the error message contains the configured path (when the
fallback exists but is not executable the message omits it). -/
theorem c4_resolution (env : ResolveEnv) (ep : String)
    (hep : env.enginePath = some ep) :
    (ep ≠ "" → isUsable env ep = true → getEnginePath env = .ok ep)
    ∧ (isUsable env ep = false → getEnginePath env = resolveFromSystem env)
    ∧ (∀ tag, ep ≠ "" → isUsable env ep = false →
        (∀ p ∈ systemPaths, isUsable env p = false) →
        detectOSTag env = .ok tag →
        (env.fs (fallbackPathOf env tag)).isFile = false →
        ∃ pre suf, getEnginePath env = .error (pre ++ ep ++ suf)) := by
  refine ⟨?_, ?_, ?_⟩
  · intro hne hu
    simp only [getEnginePath, hep]
    rw [if_neg hne, if_pos hu]
  · intro hu
    simp only [getEnginePath, hep]
    by_cases he : ep = ""
    · rw [if_pos he]
    · rw [if_neg he, hu]
      simp
  · intro tag hne hu hsys htag hfile
    have hres : getEnginePath env = resolveFromSystem env := by
      simp only [getEnginePath, hep]
      rw [if_neg hne, hu]
      simp
    have hfb : resolveFallback env
        = .error (fallbackErrNotFound env.enginePath (fallbackPathOf env tag)) := by
      unfold resolveFallback
      rw [htag]
      simp [hfile]
    refine ⟨("Stockfish binary not found at fallback path: " ++ fallbackPathOf env tag
        ++ "\n") ++ "Note: ENGINE_PATH was set (",
      ") but is invalid.\n"
        ++ ("Please either:\n"
          ++ "1. Set ENGINE_PATH to point to your Stockfish binary, or\n"
          ++ "2. Download the appropriate binary from "
          ++ "https://github.com/official-stockfish/Stockfish/releases\n"
          ++ "   and place it at " ++ fallbackPathOf env tag), ?_⟩
    rw [hres, resolveFromSystem_none env hsys, hfb, hep]
    congr 1
    simp only [fallbackErrNotFound]
    rw [if_neg hne]
    rw [← String.append_assoc _ ("Note: ENGINE_PATH was set (" ++ ep) ") but is invalid.\n"]
    rw [← String.append_assoc _ "Note: ENGINE_PATH was set (" ep]
    rw [String.append_assoc]

/-- C4 witness: the amended statement at concrete environments — a
valid `ENGINE_PATH` is returned exactly, an invalid one falls through,
and with the fallback missing the error message carries the configured
path. -/
theorem c4_resolution_witness :
    getEnginePath envC4ok = Except.ok "/good/stockfish"
    ∧ getEnginePath envC4inv = resolveFromSystem envC4inv
    ∧ ∃ pre suf, getEnginePath envC4inv = Except.error (pre ++ "/bad/engine" ++ suf) := by
  have hok := c4_resolution envC4ok "/good/stockfish" rfl
  have hinv := c4_resolution envC4inv "/bad/engine" rfl
  exact ⟨hok.1 (by decide) (by decide), hinv.2.1 (by decide),
    hinv.2.2 "linux" (by decide) (by decide) (by decide) (by decide) (by decide)⟩

/-- C9: on a host OS outside the known mapping with no `ENGINE_OS`
override, after the configured path and the system locations fail,
resolution raises the `EngineBinaryError` whose message is
`Unsupported platform: <system>` — which mentions "unsupported platform"
(case-insensitively). -/
theorem c9_unsupported_platform (env : ResolveEnv)
    (h1 : ∀ ep, env.enginePath = some ep → isUsable env ep = false)
    (h2 : ∀ p ∈ systemPaths, isUsable env p = false)
    (h3 : env.engineOS = none)
    (h4 : env.platformSystem ≠ "darwin")
    (h5 : env.platformSystem ≠ "linux")
    (h6 : env.platformSystem ≠ "windows") :
    getEnginePath env = .error ("Unsupported platform: " ++ env.platformSystem)
    ∧ ∃ suf, lowerStr ("Unsupported platform: " ++ env.platformSystem)
        = "unsupported platform" ++ suf := by
  constructor
  · have hd : detectOSTag env = .error ("Unsupported platform: " ++ env.platformSystem) := by
      unfold detectOSTag
      rw [h3]
      unfold detectOS
      rw [if_neg h4, if_neg h5, if_neg h6]
    have hfb : resolveFallback env
        = .error ("Unsupported platform: " ++ env.platformSystem) := by
      unfold resolveFallback
      rw [hd]
    have hchain : resolveFromSystem env = .error ("Unsupported platform: "
        ++ env.platformSystem) := (resolveFromSystem_none env h2).trans hfb
    cases hpath : env.enginePath with
    | none =>
      simp only [getEnginePath, hpath]
      exact hchain
    | some ep =>
      simp only [getEnginePath, hpath]
      by_cases he : ep = ""
      · rw [if_pos he]
        exact hchain
      · rw [if_neg he, h1 ep hpath]
        simpa using hchain
  · refine ⟨": " ++ lowerStr env.platformSystem, ?_⟩
    rw [lowerStr_append]
    rw [show lowerStr "Unsupported platform: " = "unsupported platform" ++ ": " from by decide]
    rw [String.append_assoc]

/-- C9 witness: a concrete environment on host system `sunos` with no
usable binary anywhere. -/
theorem c9_unsupported_platform_witness :
    getEnginePath envC9 = Except.error ("Unsupported platform: " ++ "sunos")
    ∧ ∃ suf, lowerStr ("Unsupported platform: " ++ "sunos")
        = "unsupported platform" ++ suf :=
  c9_unsupported_platform envC9
    (by
      intro ep hep
      have h2 : some "/bad/engine" = some ep := hep
      injection h2 with h3
      subst h3
      decide)
    (by decide) rfl (by decide) (by decide) (by decide)

/-! ### Handshake lemmas -/

theorem initEngine_ok (uciEvs readyEvs : List ReadEvent) (o : InitOutcome)
    (h : initEngine uciEvs readyEvs = some o) (hres : o.result = .ok ()) :
    o = ⟨"uci" :: optionCmds ++ ["isready"], false, true, .ok ()⟩ := by
  unfold initEngine at h
  cases h1 : readResponse (some "uciok") "5.0" uciEvs with
  | none => simp [h1] at h
  | some r1 =>
    cases r1 with
    | error e =>
      simp only [h1] at h
      injection h with h
      rw [← h] at hres
      exact Except.noConfusion hres
    | ok rs =>
      simp only [h1] at h
      by_cases ha : rs.any (fun r => strStarts r "uciok") = true
      · rw [if_pos ha] at h
        cases h2 : readResponse (some "readyok") "5.0" readyEvs with
        | none => simp [h2] at h
        | some r2 =>
          cases r2 with
          | error e =>
            simp only [h2] at h
            injection h with h
            rw [← h] at hres
            exact Except.noConfusion hres
          | ok rs2 =>
            simp only [h2] at h
            by_cases hb : rs2.any (fun r => strStarts r "readyok") = true
            · rw [if_pos hb] at h
              injection h with h
              exact h.symm
            · rw [if_neg hb] at h
              injection h with h
              rw [← h] at hres
              exact Except.noConfusion hres
      · rw [if_neg ha] at h
        injection h with h
        rw [← h] at hres
        exact Except.noConfusion hres

theorem initEngine_no_uciok (uciEvs readyEvs : List ReadEvent) (o : InitOutcome)
    (hnm : ∀ e ∈ uciEvs, lineNoMatch "uciok" e)
    (h : initEngine uciEvs readyEvs = some o) :
    o.sent = ["uci"] ∧ o.registered = false ∧ o.liveChild = false
    ∧ ∃ m, o.result = .error (.stockfish ("Failed to initialize engine: " ++ m)) := by
  unfold initEngine at h
  cases h1 : readResponse (some "uciok") "5.0" uciEvs with
  | none => simp [h1] at h
  | some r1 =>
    cases r1 with
    | error e =>
      simp only [h1] at h
      injection h with h
      rw [← h]
      exact ⟨rfl, rfl, rfl, pyStr e, rfl⟩
    | ok rs =>
      have hall : ∀ r ∈ rs, strStarts r "uciok" = false :=
        readLoop_ok_no_match "uciok" "5.0" uciEvs [] rs hnm (by simp) h1
      have ha : ¬ (rs.any (fun r => strStarts r "uciok") = true) := by
        simp only [List.any_eq_true, not_exists]
        intro r
        rintro ⟨hr, hsr⟩
        rw [hall r hr] at hsr
        exact Bool.noConfusion hsr
      simp only [h1] at h
      rw [if_neg ha] at h
      injection h with h
      rw [← h]
      exact ⟨rfl, rfl, rfl, "Failed to initialize UCI mode", rfl⟩

/-- C5: engine construction performs the UCI handshake in order —
`uci`, await `uciok`, the two fixed options, `isready`, await
`readyok` — registering only on success; and when the child never
emits a `uciok` line, construction fails with a handshake error, the
partial child is reclaimed (no live child), and the instance is never
registered. -/
theorem c5_handshake :
    (∀ uciEvs readyEvs o, newEngine uciEvs readyEvs = some o → o.result = .ok () →
        o.sent = ["uci", "setoption name Hash value 128",
          "setoption name Threads value 4", "isready"]
        ∧ o.registered = true ∧ o.liveChild = true)
    ∧ (∀ uciEvs readyEvs o, (∀ e ∈ uciEvs, lineNoMatch "uciok" e) →
        newEngine uciEvs readyEvs = some o →
        o.sent = ["uci"] ∧ o.registered = false ∧ o.liveChild = false
        ∧ ∃ m, o.result = .error (.stockfish ("Failed to initialize engine: " ++ m))) := by
  constructor
  · intro uciEvs readyEvs o hne hres
    unfold newEngine at hne
    cases h1 : initEngine uciEvs readyEvs with
    | none => simp [h1] at hne
    | some o1 =>
      simp only [h1] at hne
      cases hr1 : o1.result with
      | ok val =>
        simp only [hr1] at hne
        injection hne with hne
        have ho1 : o1 = ⟨"uci" :: optionCmds ++ ["isready"], false, true, .ok ()⟩ :=
          initEngine_ok uciEvs readyEvs o1 h1 hr1
        rw [← hne, ho1]
        exact ⟨rfl, rfl, rfl⟩
      | error e =>
        simp only [hr1] at hne
        injection hne with hne
        rw [← hne, hr1] at hres
        exact Except.noConfusion hres
  · intro uciEvs readyEvs o hnm hne
    unfold newEngine at hne
    cases h1 : initEngine uciEvs readyEvs with
    | none => simp [h1] at hne
    | some o1 =>
      simp only [h1] at hne
      obtain ⟨hs, hr, hl, m, hm⟩ := initEngine_no_uciok uciEvs readyEvs o1 hnm h1
      simp only [hm] at hne
      injection hne with hne
      rw [← hne]
      exact ⟨hs, hr, hl, m, hm⟩

/-- C5 witness: a scripted child that answers `uciok` and `readyok`
yields a registered live instance with the four commands sent in
order; a scripted child that only chats `info` until the deadline
yields an unregistered dead instance and a handshake error. -/
theorem c5_handshake_witness :
    (c5okOutcome.sent = ["uci", "setoption name Hash value 128",
        "setoption name Threads value 4", "isready"]
      ∧ c5okOutcome.registered = true ∧ c5okOutcome.liveChild = true)
    ∧ (c5failOutcome.sent = ["uci"] ∧ c5failOutcome.registered = false
      ∧ c5failOutcome.liveChild = false
      ∧ ∃ m, c5failOutcome.result
          = .error (.stockfish ("Failed to initialize engine: " ++ m))) := by
  constructor
  · exact c5_handshake.1 [ReadEvent.line "uciok"] [ReadEvent.line "readyok"] c5okOutcome
      (by decide) rfl
  · refine c5_handshake.2 [ReadEvent.line "info string x", ReadEvent.deadline] []
      c5failOutcome ?_ (by decide)
    intro e he
    simp only [List.mem_cons, List.not_mem_nil, or_false] at he
    rcases he with rfl | rfl
    · exact (by decide : strStarts (pyStrip "info string x") "uciok" = false)
    · exact trivial

/-! ### Registry lemmas -/

theorem shutdownLoop_processed (raisesOn : ℕ → Bool) :
    ∀ (l : List ℕ) (s : Finset ℕ), (shutdownLoop raisesOn l s).2 = l := by
  intro l
  induction l with
  | nil => intro s; rfl
  | cons e rest ih =>
    intro s
    simp [shutdownLoop, ih]

theorem shutdownLoop_empty (raisesOn : ℕ → Bool) (hnr : ∀ e, raisesOn e = false) :
    ∀ (l : List ℕ) (s : Finset ℕ), (∀ x ∈ s, x ∈ l) →
      (shutdownLoop raisesOn l s).1 = ∅ := by
  intro l
  induction l with
  | nil =>
    intro s hs
    have hse : s = ∅ := Finset.eq_empty_of_forall_not_mem (fun x hx => by simpa using hs x hx)
    simp [shutdownLoop, hse]
  | cons e rest ih =>
    intro s hs
    simp only [shutdownLoop, stopCall, hnr e, Bool.false_eq_true, if_false]
    apply ih
    intro x hx
    unfold regUnregister at hx
    by_cases he : e ∈ s
    · rw [if_pos he] at hx
      have hxs := Finset.mem_of_mem_erase hx
      have hne := Finset.ne_of_mem_erase hx
      have hmem := hs x hxs
      simpa [hne] using hmem
    · rw [if_neg he] at hx
      have hmem := hs x hx
      have hne : x ≠ e := fun hh => he (hh ▸ hx)
      simpa [hne] using hmem

/-- C6: `unregister` of an absent instance is a no-op; `shutdown_all`
invokes `stop()` on every snapshotted instance even when some of those
calls raise; and, with the (never-raising) `StockfishEngine.stop`, one
pass empties the registry so a repeated `shutdown_all` finds an empty
snapshot and completes trivially. -/
theorem c6_registry (raisesOn : ℕ → Bool) (s : Finset ℕ) (x : ℕ) (snap : List ℕ)
    (hx : x ∉ s) (hs : Enumerates snap s) :
    regUnregister s x = s
    ∧ (shutdownAll raisesOn snap s).2 = snap
    ∧ ((∀ e, raisesOn e = false) →
        (shutdownAll raisesOn snap s).1 = ∅
        ∧ ∀ snap2, Enumerates snap2 (shutdownAll raisesOn snap s).1 →
            shutdownAll raisesOn snap2 (shutdownAll raisesOn snap s).1 = (∅, [])) := by
  refine ⟨?_, ?_, ?_⟩
  · unfold regUnregister
    rw [if_neg hx]
  · exact shutdownLoop_processed raisesOn snap s
  · intro hnr
    have hempty : (shutdownAll raisesOn snap s).1 = ∅ :=
      shutdownLoop_empty raisesOn hnr snap s (fun y hy => (hs.2 y).mpr hy)
    refine ⟨hempty, ?_⟩
    intro snap2 hsn2
    have h2 : snap2 = [] := by
      rw [hempty] at hsn2
      cases snap2 with
      | nil => rfl
      | cons a l => exact absurd ((hsn2.2 a).mp (List.mem_cons_self a l)) (by simp)
    rw [h2, hempty]
    rfl

/-- C6 witness: a concrete two-instance registry with never-raising
stops — unregistering the absent instance 5 is a no-op, both
snapshotted instances are stopped, and the registry ends empty. -/
theorem c6_registry_witness :
    regUnregister ({1, 2} : Finset ℕ) 5 = {1, 2}
    ∧ (shutdownAll (fun _ => false) [1, 2] {1, 2}).2 = [1, 2]
    ∧ (shutdownAll (fun _ => false) [1, 2] {1, 2}).1 = ∅ := by
  have h := c6_registry (fun _ => false) {1, 2} 5 [1, 2] (by decide)
    ⟨by decide, by intro y; simp⟩
  exact ⟨h.1, h.2.1, (h.2.2 (fun _ => rfl)).1⟩

/-! ### Best-move lemmas -/

theorem getBestMove_fst (fen : String) (hist : List String) (evs : List ReadEvent) :
    (getBestMove true fen hist evs).1 = [positionCmd fen hist, "go movetime 3000"] := by
  unfold getBestMove
  cases hr : readResponse (some "bestmove") "30.0" evs with
  | none => rfl
  | some r =>
    cases r with
    | error e => rfl
    | ok rs =>
      cases hp : parseBestMove rs with
      | ok m => simp [hp]
      | error e => simp [hp]

/-- C7: for every FEN that parses, `game_status` returns one of the
four statuses; on `CHECKMATE` the winner is the side not to move
(`BLACK` when White is to move, `WHITE` otherwise), and in every other
case the winner is null; and on the fool's-mate position the result is
`CHECKMATE` with winner `BLACK`. -/
theorem c7_game_status :
    (∀ fen st w, getGameStatusTool fen = .ok (st, w) →
        (st = "CHECKMATE" ∨ st = "STALEMATE" ∨ st = "DRAW" ∨ st = "IN_PROGRESS")
        ∧ (st = "CHECKMATE" →
            ∃ b, parseFen fen = .ok b
              ∧ w = some (match b.turn with | .white => "BLACK" | .black => "WHITE"))
        ∧ (st ≠ "CHECKMATE" → w = none))
    ∧ getGameStatusTool foolsMateFen = .ok ("CHECKMATE", some "BLACK") := by
  constructor
  · intro fen st w h
    unfold getGameStatusTool at h
    cases hp : parseFen fen with
    | error e => simp [hp] at h
    | ok b =>
      simp only [hp] at h
      by_cases h1 : isCheckmate b = true
      · rw [if_pos h1] at h
        injection h with h
        rw [Prod.mk.injEq] at h
        obtain ⟨hst, hw⟩ := h
        subst hst
        subst hw
        exact ⟨Or.inl rfl, fun _ => ⟨b, rfl, rfl⟩, fun hne => absurd rfl hne⟩
      · rw [if_neg h1] at h
        by_cases h2 : isStalemate b = true
        · rw [if_pos h2] at h
          injection h with h
          rw [Prod.mk.injEq] at h
          obtain ⟨hst, hw⟩ := h
          subst hst
          subst hw
          exact ⟨Or.inr (Or.inl rfl), fun hh => absurd hh (by decide), fun _ => rfl⟩
        · rw [if_neg h2] at h
          by_cases h3 : insufficientMaterial b = true
          · rw [if_pos h3] at h
            injection h with h
            rw [Prod.mk.injEq] at h
            obtain ⟨hst, hw⟩ := h
            subst hst
            subst hw
            exact ⟨Or.inr (Or.inr (Or.inl rfl)), fun hh => absurd hh (by decide),
              fun _ => rfl⟩
          · rw [if_neg h3] at h
            injection h with h
            rw [Prod.mk.injEq] at h
            obtain ⟨hst, hw⟩ := h
            subst hst
            subst hw
            exact ⟨Or.inr (Or.inr (Or.inr rfl)), fun hh => absurd hh (by decide),
              fun _ => rfl⟩
  · decide

/-- C7 witness: the general status/winner contract applied at the
fool's-mate position. -/
theorem c7_game_status_witness :
    (("CHECKMATE" = "CHECKMATE" ∨ "CHECKMATE" = "STALEMATE" ∨ "CHECKMATE" = "DRAW"
        ∨ "CHECKMATE" = "IN_PROGRESS")
    ∧ ("CHECKMATE" = "CHECKMATE" →
        ∃ b, parseFen foolsMateFen = .ok b
          ∧ (some "BLACK" : Option String)
              = some (match b.turn with | .white => "BLACK" | .black => "WHITE"))
    ∧ ("CHECKMATE" ≠ "CHECKMATE" → (some "BLACK" : Option String) = none)) :=
  c7_game_status.1 foolsMateFen "CHECKMATE" (some "BLACK") c7_game_status.2

/-- C8: `get_best_move` writes exactly one composed `position` command —
`position fen <FEN>` for an empty history, extended with
` moves <m1> <m2> …` (the space-joined history) otherwise — followed by
the fixed `go` command; with the starting position and history
`["e2e4"]` the line is `position fen <FEN> moves e2e4`. -/
theorem c8_position_line (fen : String) (hist : List String) (evs : List ReadEvent) :
    (getBestMove true fen hist evs).1
      = [(if hist = [] then "position fen " ++ fen
          else "position fen " ++ fen ++ " moves " ++ String.intercalate " " hist),
         "go movetime 3000"]
    ∧ (getBestMove true startFen ["e2e4"] evs).1
      = ["position fen rnbqkbnr/pppppppp/8/8/8/8/PPPPPPPP/RNBQKBNR w KQkq - 0 1 moves e2e4",
         "go movetime 3000"] := by
  constructor
  · rw [getBestMove_fst]
    congr 1
    unfold positionCmd
    by_cases hh : hist = []
    · subst hh
      simp
    · have he : hist.isEmpty = false := by
        cases hist with
        | nil => exact absurd rfl hh
        | cons a l => rfl
      simp only [he, Bool.false_eq_true, if_false, if_neg hh]
  · rw [getBestMove_fst]
    congr 1

/-- C10: every error outcome of `get_best_move` is a `StockfishError`
— the entry check raises one directly and the catch-all wraps
everything else, including the `IndexError` from tokenizing a bare
`bestmove` line, which surfaces as
`Error getting best move: list index out of range`. -/
theorem c10_stockfish_only (alive : Bool) (fen : String) (hist : List String)
    (evs : List ReadEvent) (e : PyErr)
    (h : (getBestMove alive fen hist evs).2 = some (.error e)) :
    (∃ m, e = .stockfish m)
    ∧ (getBestMove true fen hist [ReadEvent.line "bestmove"]).2
        = some (.error (.stockfish "Error getting best move: list index out of range")) := by
  constructor
  · cases alive with
    | false =>
      have h2 : some (Except.error (PyErr.stockfish "Engine not initialized or not running"))
          = some (Except.error e) := h
      injection h2 with h2
      injection h2 with h2
      exact ⟨"Engine not initialized or not running", h2.symm⟩
    | true =>
      unfold getBestMove at h
      cases hr : readResponse (some "bestmove") "30.0" evs with
      | none =>
        rw [hr] at h
        simp at h
      | some r =>
        cases r with
        | error e0 =>
          rw [hr] at h
          simp at h
          exact ⟨"Error getting best move: " ++ pyStr e0, h.symm⟩
        | ok rs =>
          rw [hr] at h
          cases hp : parseBestMove rs with
          | ok m => simp [hp] at h
          | error e0 =>
            simp [hp] at h
            exact ⟨"Error getting best move: " ++ pyStr e0, h.symm⟩
  · rfl

/-- C10 witness: a read deadline with nothing accumulated surfaces as a
doubly wrapped `StockfishError`, and the bare `bestmove` line as the
wrapped `IndexError`. -/
theorem c10_stockfish_only_witness :
    (∃ m, c10err = PyErr.stockfish m)
    ∧ (getBestMove true "fen0" [] [ReadEvent.line "bestmove"]).2
        = some (.error (.stockfish "Error getting best move: list index out of range")) :=
  c10_stockfish_only true "fen0" [] [ReadEvent.deadline] c10err (by decide)

end ChessEngineSpec
